import Mathlib

/-!
Verification development for the MCP-for-Unity server core: the
transport/connection layer and the command-execution orchestrator
(`custom_tool_service.py`, `uds_connection.py`, `pipe_connection.py`,
`unity_transport.py`).

The Python code is shallowly embedded: pure functions become Lean
functions, stateful methods become explicit state-passing functions,
machine floats become exact rationals (all arithmetic performed by the
code on poll intervals and deadlines — doubling, `min`/`max` clamping
against 0.1/1.0/5.0/600 — is exact in binary floating point at these
magnitudes, so `ℚ` is a faithful model), and external collaborators
(the connection pool, the transport dispatch, the plugin hub, the
wall clock) become explicit environment parameters.
-/

namespace UnityMcp

/-- A Python/JSON value as it travels through the transport layer.
Numbers (`int` and `float`) are collapsed into one exact rational
constructor; dicts are insertion-ordered association lists, matching
Python dict iteration order. Non-finite floats (`inf`/`nan`) are outside
the model. -/
inductive PyVal where
  | pynone
  | pybool (b : Bool)
  | pynum (q : ℚ)
  | pystr (s : String)
  | pylist (xs : List PyVal)
  | pydict (entries : List (String × PyVal))

namespace PyVal

/-- First-match association lookup, the model of Python dict key access
(dicts built by the embedded code never carry duplicate keys). -/
def lookup (entries : List (String × PyVal)) (k : String) : Option PyVal :=
  match entries with
  | [] => none
  | (k', v) :: rest => if k' = k then some v else lookup rest k

/-- `d.get(k)`: Python `dict.get` with its default of `None`. -/
def pyGet (entries : List (String × PyVal)) (k : String) : PyVal :=
  (lookup entries k).getD .pynone

/-- `d.get(k, dflt)`. -/
def pyGetD (entries : List (String × PyVal)) (k : String) (dflt : PyVal) : PyVal :=
  (lookup entries k).getD dflt

/-- `k in d`. -/
def hasKey (entries : List (String × PyVal)) (k : String) : Bool :=
  (lookup entries k).isSome

/-- Python truthiness (`bool(v)`). -/
def truthy : PyVal → Bool
  | .pynone => false
  | .pybool b => b
  | .pynum q => q != 0
  | .pystr s => s != ""
  | .pylist xs => !xs.isEmpty
  | .pydict entries => !entries.isEmpty

/-- `str(v)`. String content only matters for values the claims never
render; numeric/container rendering is a plausible approximation of
Python `str` and is not load-bearing anywhere in this development. -/
def pyStr : PyVal → String
  | .pynone => "None"
  | .pybool b => if b then "True" else "False"
  | .pynum q => toString q
  | .pystr s => s
  | .pylist _ => "[...]"
  | .pydict _ => "{...}"

end PyVal

/-! ### String primitives

Structurally recursive models of the Python string operations the code
uses (`in`, `partition`, `startswith`, `lower`), over the character
list of a `String`. `str.lower()` is modelled on ASCII letters, which
covers every value the code lowercases (hex hash strings). -/

/-- `"@" in s` (single-character membership). -/
def strContains (s : String) (c : Char) : Bool := s.data.contains c

/-- Split at the first occurrence of `c`: `some (before, after)`, or
`none` when `c` does not occur. -/
def splitAtFirst (cs : List Char) (c : Char) : Option (List Char × List Char) :=
  match cs with
  | [] => none
  | a :: rest =>
    if a = c then some ([], rest)
    else
      match splitAtFirst rest c with
      | some (pre, post) => some (a :: pre, post)
      | none => none

/-- `s.partition("@")[0]`. -/
def partBefore (s : String) : String :=
  match splitAtFirst s.data '@' with
  | some (pre, _) => String.mk pre
  | none => s

/-- `s.partition("@")[2]`: everything after the first `"@"` (empty when
there is none). -/
def partAfter (s : String) : String :=
  match splitAtFirst s.data '@' with
  | some (_, post) => String.mk post
  | none => ""

/-- `s.startswith(p)`. -/
def listStartsWith : List Char → List Char → Bool
  | _, [] => true
  | [], _ :: _ => false
  | a :: as_, b :: bs => a = b && listStartsWith as_ bs

/-- `s.startswith(p)` on strings. -/
def pyStartsWith (s p : String) : Bool := listStartsWith s.data p.data

/-- `s.lower()` (ASCII). -/
def pyLower (s : String) : String := String.mk (s.data.map Char.toLower)

/-- Characters Python `float(str)` strips around a numeric literal. -/
def isPySpace (c : Char) : Bool :=
  c = ' ' ∨ c = '\t' ∨ c = '\n' ∨ c = '\r' ∨ c = '\x0c' ∨ c = '\x0b'

/-- The value of a decimal digit character (48 is the code of `'0'`). -/
def digitVal (c : Char) : ℕ := c.toNat - 48

/-- Digits to a natural number (most significant first); `none` when empty. -/
def digitsVal (cs : List Char) : Option ℕ :=
  match cs with
  | [] => none
  | _ => some (cs.foldl (fun acc c => 10 * acc + digitVal c) 0)

/-- Split a leading optional sign; returns (sign, rest). -/
def takeSign (cs : List Char) : ℚ × List Char :=
  match cs with
  | '+' :: rest => (1, rest)
  | '-' :: rest => (-1, rest)
  | _ => (1, cs)

/-- Model of Python `float(str)` restricted to finite decimal literals:
optional surrounding whitespace, optional sign, digits with an optional
fractional part, optional exponent. `inf`/`nan` and underscore
separators are not representable in the rational model and parse as
failures; no claim exercises them. -/
def parsePyFloat (s : String) : Option ℚ :=
  let cs := (s.data.dropWhile isPySpace).reverse.dropWhile isPySpace |>.reverse
  let (sign, cs) := takeSign cs
  let intPart := cs.takeWhile Char.isDigit
  let rest1 := cs.dropWhile Char.isDigit
  let (fracPart, rest2) :=
    match rest1 with
    | '.' :: r => (r.takeWhile Char.isDigit, r.dropWhile Char.isDigit)
    | _ => ([], rest1)
  if intPart = [] ∧ fracPart = [] then none
  else
    let mantissa : ℚ :=
      ((digitsVal intPart).getD 0 : ℚ) +
        ((digitsVal fracPart).getD 0 : ℚ) / (10 : ℚ) ^ fracPart.length
    match rest2 with
    | [] => some (sign * mantissa)
    | marker :: r =>
      if marker = 'e' ∨ marker = 'E' then
        let (esign, r') := takeSign r
        match digitsVal (r'.takeWhile Char.isDigit) with
        | some e =>
          if r'.dropWhile Char.isDigit = [] then
            if esign = 1 then some (sign * mantissa * (10 : ℚ) ^ e)
            else some (sign * mantissa / (10 : ℚ) ^ e)
          else none
        | none => none
      else none

/-- Model of Python `float(x)`: numbers pass through, `bool` is an `int`
subtype (`True → 1.0`), strings are parsed, everything else raises
`TypeError` (modelled as `none`). -/
def pyFloat : PyVal → Option ℚ
  | .pynum q => some q
  | .pybool b => some (if b then 1 else 0)
  | .pystr s => parsePyFloat s
  | _ => none

/-- Modelled from the spec: the uniform Result shape of `models.models.MCPResponse`
(§3 "Result" — success flag, optional message, optional error, optional data;
`models/models.py` is outside the provided sources). Fields hold the Python
values the orchestrator passes to the constructor; the schema layer's field
validation is not modelled, since every constructor call in the embedded code
passes values of the declared shapes. `pynone` plays the role of an absent
optional field. -/
structure MCPResponse where
  success : PyVal := .pybool true
  message : PyVal := .pynone
  error : PyVal := .pynone
  data : PyVal := .pynone

/-- A value returned by the transport dispatch: either a plain Python
value or an already-constructed `MCPResponse` instance (the
`isinstance(response, MCPResponse)` branch of `_normalize_response`). -/
inductive Resp where
  | val (v : PyVal)
  | mcp (m : MCPResponse)

/-- `_DEFAULT_POLL_INTERVAL = 1.0`. -/
def defaultPollInterval : ℚ := 1

/-- `_MAX_POLL_SECONDS = 600`. -/
def maxPollSeconds : ℚ := 600

/-- The classification produced by `_interpret_status`. -/
inductive PollSt where
  | pending
  | complete
  | error
  | final
  deriving DecidableEq, Repr

/-- `CustomToolService._interpret_status` (custom_tool_service.py lines
294-324): classify a raw poll response into a `PollSt` plus the next
poll interval. -/
def interpretStatus (response : Resp) : PollSt × ℚ :=
  match response with
  | .mcp _ => (.final, defaultPollInterval)  -- not None, not a dict
  | .val .pynone => (.pending, defaultPollInterval)
  | .val (.pydict d) =>
    match PyVal.pyGet d "_mcp_status" with
    | .pynone =>  -- `status is None`
      if d.length = 0 then (.pending, defaultPollInterval)
      else (.final, defaultPollInterval)
    | .pystr s =>  -- string equality checks `status == "pending"` etc.
      if s = "pending" then
        let intervalRaw := PyVal.pyGetD d "_mcp_poll_interval" (.pynum defaultPollInterval)
        let interval :=
          match pyFloat intervalRaw with
          | some q => q
          | none => defaultPollInterval
        (.pending, max 0.1 (min interval 5))
      else if s = "complete" then (.complete, defaultPollInterval)
      else if s = "error" then (.error, defaultPollInterval)
      else (.final, defaultPollInterval)
    | _ => (.final, defaultPollInterval)  -- non-string marker compares unequal to every literal
  | .val _ => (.final, defaultPollInterval)

/-- `CustomToolService._normalize_response` (lines 326-358). Note the
early return for dict-shaped responses at line 329: it makes the block
at lines 338-357 reachable only for non-dict, non-`MCPResponse` values,
so the `_mcp_status == "error"` check at line 345 is dead code. -/
def normalizeResponse (response : Resp) : MCPResponse :=
  match response with
  | .mcp m => m
  | .val (.pydict d) =>
    { success := PyVal.pyGetD d "success" (.pybool true)
      message := PyVal.pyGet d "message"
      error := PyVal.pyGet d "error"
      data := if PyVal.hasKey d "data" then PyVal.pyGet d "data" else .pydict d }
  | .val v =>
    { success := .pybool false
      message := .pystr (PyVal.pyStr v)
      error := .pynone
      data := .pynone }

/-- `str(response)` on a transport response; the `MCPResponse` rendering
approximates the pydantic `__str__` and is not load-bearing in any claim. -/
def respStr : Resp → String
  | .val v => PyVal.pyStr v
  | .mcp _ => "MCPResponse(...)"

/-- `CustomToolService._safe_response` (lines 360-365). -/
def safeResponse (response : Resp) : PyVal :=
  match response with
  | .val (.pydict d) => .pydict d
  | .val .pynone => .pynone
  | r => .pydict [("message", .pystr (respStr r))]

/-- The outcome of one re-dispatch of the poll command through
`send_with_unity_instance`: a returned value, or a raised exception
(any `Exception`, carried as its message string). -/
inductive PollReply where
  | ok (r : Resp)
  | exn (msg : String)

/-- The timeout failure `MCPResponse` built at the poll deadline
(custom_tool_service.py lines 272-277). -/
def timeoutResponse (toolName : String) (lastResponse : Resp) : MCPResponse :=
  { success := .pybool false
    message := .pystr ("Timeout waiting for " ++ toolName ++ " to complete")
    error := .pynone
    data := safeResponse lastResponse }

/-- The synthetic pending response fabricated when a poll dispatch
raises (custom_tool_service.py lines 285-292): interval
`min(max(poll_interval * 2, _DEFAULT_POLL_INTERVAL), 5.0)`. -/
def syntheticPending (pollInterval : ℚ) (excMsg : String) : Resp :=
  .val (.pydict
    [ ("_mcp_status", .pystr "pending")
    , ("_mcp_poll_interval", .pynum (min (max (pollInterval * 2) defaultPollInterval) 5))
    , ("message", .pystr ("Retrying after transient error: " ++ excMsg)) ])

/-- `CustomToolService._poll_until_complete` (lines 252-292), as an
instrumented fuel-indexed loop. The wall clock is threaded explicitly:
`t` is the elapsed time since loop start (the deadline check
`time.time() > deadline` becomes `maxPollSeconds < t`), and each
`asyncio.sleep(poll_interval)` advances it; the dispatch outcomes are
the environment stream `replies` (reply number `k` is the result of the
`k`-th re-dispatch). The result is instrumented with the clock value
and the current raw response held at the return point; `none` means the
fuel ran out before the loop returned (the loop itself has no other
exit). -/
def pollLoop (replies : ℕ → PollReply) (toolName : String) :
    ℕ → ℚ → Resp → ℕ → Option (MCPResponse × ℚ × Resp)
  | 0, _, _, _ => none
  | fuel + 1, t, response, k =>
    let si := interpretStatus response
    if si.1 = .complete ∨ si.1 = .error ∨ si.1 = .final then
      some (normalizeResponse response, t, response)
    else if maxPollSeconds < t then
      some (timeoutResponse toolName response, t, response)
    else
      match replies k with
      | .ok r => pollLoop replies toolName fuel (t + si.2) r (k + 1)
      | .exn e =>
        pollLoop replies toolName fuel (t + si.2) (syntheticPending si.2 e) (k + 1)

/-- Modelled from the spec: `models.models.ToolParameterModel` (§3
Parameter — name, optional description, type tag, required flag,
optional default; `models/models.py` is outside the provided sources). -/
structure ToolParameterModel where
  name : String
  description : Option String := none
  type : String := "string"
  required : Bool := true
  default_value : PyVal := .pynone

/-- Modelled from the spec: `models.models.ToolDefinitionModel` (§3
ToolDefinition — name, optional description, `structured_output`,
`requires_polling`, optional `poll_action`, parameter list;
`models/models.py` is outside the provided sources). -/
structure ToolDefinitionModel where
  name : String
  description : Option String := none
  structured_output : Bool := true
  requires_polling : Bool := false
  poll_action : Option String := some "status"
  parameters : List ToolParameterModel := []

/-- Insertion-ordered association-list upsert: replaces the first
binding of the key in place, or appends a fresh binding at the end —
exactly a Python `dict.__setitem__`. -/
def upsert {α : Type} (k : String) (v : α) : List (String × α) → List (String × α)
  | [] => [(k, v)]
  | (k', v') :: rest =>
    if k' = k then (k, v) :: rest else (k', v') :: upsert k v rest

/-- Association lookup (Python dict read through `.get`). -/
def alookup {α : Type} (k : String) : List (String × α) → Option α
  | [] => none
  | (k', v) :: rest => if k' = k then some v else alookup k rest

/-- The mutable state of the `CustomToolService` singleton:
`_project_tools` (ProjectID → tool name → definition),
`_hash_to_project` (lowercased hash → ProjectID) and the class-level
`_last_sync_time` used by the sync throttle. -/
structure ServiceState where
  projectTools : List (String × List (String × ToolDefinitionModel)) := []
  hashToProject : List (String × String) := []
  lastSyncTime : ℚ := 0

/-- `CustomToolService._is_registered` (lines 170-171). -/
def isRegistered (st : ServiceState) (projectId toolName : String) : Bool :=
  (alookup toolName ((alookup projectId st.projectTools).getD [])).isSome

/-- `CustomToolService._register_tool` (lines 173-175):
`self._project_tools.setdefault(project_id, {})[definition.name] = definition`. -/
def registerTool (st : ServiceState) (projectId : String)
    (definition : ToolDefinitionModel) : ServiceState :=
  let tools := (alookup projectId st.projectTools).getD []
  { st with projectTools := upsert projectId (upsert definition.name definition tools) st.projectTools }

/-- `CustomToolService.get_project_id_for_hash` (lines 247-250). -/
def getProjectIdForHash (st : ServiceState) (projectHash : Option String) : Option String :=
  match projectHash with
  | none => none
  | some h => if h = "" then none else alookup (pyLower h) st.hashToProject

/-- The validated body of the `/register-tools` endpoint
(`RegisterToolsPayload`). -/
structure RegisterToolsPayload where
  project_id : String
  project_hash : Option String := none
  tools : List ToolDefinitionModel

/-- The `/register-tools` response model (`ToolRegistrationResponse`). -/
structure ToolRegistrationResponse where
  success : Bool
  registered : List String
  replaced : List String
  message : String

/-- The registration loop of the `/register-tools` route
(custom_tool_service.py lines 64-70): classify each tool as replaced
when a same-named tool already exists, then upsert it unconditionally. -/
def registerLoop (projectId : String) (tools : List ToolDefinitionModel)
    (st : ServiceState) (registered replaced : List String) :
    ServiceState × List String × List String :=
  match tools with
  | [] => (st, registered, replaced)
  | tool :: rest =>
    let replaced' :=
      if isRegistered st projectId tool.name then replaced ++ [tool.name] else replaced
    let st' := registerTool st projectId tool
    registerLoop projectId rest st' (registered ++ [tool.name]) replaced'

/-- The last definition in a batch bearing a given name — the one the
registration loop's sequential upserts leave in the registry for that
name (a later same-named entry in one batch overwrites an earlier
one). -/
def lastWithName : List ToolDefinitionModel → String → Option ToolDefinitionModel
  | [], _ => none
  | t :: rest, n =>
    match lastWithName rest n with
    | some t' => some t'
    | none => if t.name = n then some t else none

/-- The POST `/register-tools` handler after payload validation
(custom_tool_service.py lines 58-86): run the registration loop, record
a supplied (truthy) project hash lowercased in `_hash_to_project`, and
build the success message. -/
def registerBatch (st : ServiceState) (payload : RegisterToolsPayload) :
    ServiceState × ToolRegistrationResponse :=
  let (st1, registered, replaced) := registerLoop payload.project_id payload.tools st [] []
  let st2 :=
    match payload.project_hash with
    | some h =>
      if h = "" then st1  -- `if payload.project_hash:` — empty string is falsy
      else { st1 with hashToProject := upsert (pyLower h) payload.project_id st1.hashToProject }
    | none => st1
  let message :=
    "Registered " ++ toString registered.length ++ " tool(s)" ++
      (if replaced.isEmpty then "" else " (replaced: " ++ String.intercalate ", " replaced ++ ")")
  (st2, { success := true, registered := registered, replaced := replaced, message := message })

/-! ### SHA-256 (`hashlib.sha256`), over naturals reduced mod 2^32 -/

/-- Truncate to a 32-bit word. -/
def w32 (n : ℕ) : ℕ := n % 2 ^ 32

/-- 32-bit right rotation. -/
def rotr (k x : ℕ) : ℕ := w32 ((x >>> k) ||| (x <<< (32 - k)))

/-- 32-bit bitwise complement. -/
def bnot32 (x : ℕ) : ℕ := x ^^^ (2 ^ 32 - 1)

def bigSigma0 (x : ℕ) : ℕ := rotr 2 x ^^^ rotr 13 x ^^^ rotr 22 x
def bigSigma1 (x : ℕ) : ℕ := rotr 6 x ^^^ rotr 11 x ^^^ rotr 25 x
def smallSigma0 (x : ℕ) : ℕ := rotr 7 x ^^^ rotr 18 x ^^^ (x >>> 3)
def smallSigma1 (x : ℕ) : ℕ := rotr 17 x ^^^ rotr 19 x ^^^ (x >>> 10)
def chFn (e f g : ℕ) : ℕ := (e &&& f) ^^^ (bnot32 e &&& g)
def majFn (a b c : ℕ) : ℕ := ((a &&& b) ^^^ (a &&& c)) ^^^ (b &&& c)

/-- The 64 SHA-256 round constants of FIPS 180-4, written in decimal. -/
def shaK : List ℕ :=
  [ 1116352408, 1899447441, 3049323471, 3921009573, 961987163, 1508970993
  , 2453635748, 2870763221, 3624381080, 310598401, 607225278, 1426881987
  , 1925078388, 2162078206, 2614888103, 3248222580, 3835390401, 4022224774
  , 264347078, 604807628, 770255983, 1249150122, 1555081692, 1996064986
  , 2554220882, 2821834349, 2952996808, 3210313671, 3336571891, 3584528711
  , 113926993, 338241895, 666307205, 773529912, 1294757372, 1396182291
  , 1695183700, 1986661051, 2177026350, 2456956037, 2730485921, 2820302411
  , 3259730800, 3345764771, 3516065817, 3600352804, 4094571909, 275423344
  , 430227734, 506948616, 659060556, 883997877, 958139571, 1322822218
  , 1537002063, 1747873779, 1955562222, 2024104815, 2227730452, 2361852424
  , 2428436474, 2756734187, 3204031479, 3329325298 ]

/-- The SHA-256 working state (a..h). -/
structure ShaState where
  a : ℕ
  b : ℕ
  c : ℕ
  d : ℕ
  e : ℕ
  f : ℕ
  g : ℕ
  h : ℕ

/-- The SHA-256 initial hash value of FIPS 180-4, written in decimal. -/
def shaInit : ShaState :=
  ⟨1779033703, 3144134277, 1013904242, 2773480762,
    1359893119, 2600822924, 528734635, 1541459225⟩

/-- One compression round. -/
def shaRound (s : ShaState) (ki wi : ℕ) : ShaState :=
  let t1 := w32 (s.h + bigSigma1 s.e + chFn s.e s.f s.g + ki + wi)
  let t2 := w32 (bigSigma0 s.a + majFn s.a s.b s.c)
  ⟨w32 (t1 + t2), s.a, s.b, s.c, w32 (s.d + t1), s.e, s.f, s.g⟩

/-- Big-endian word from four bytes. -/
def beWord (bs : List ℕ) : ℕ :=
  bs.foldl (fun acc b => acc * 256 + b) 0

/-- Extend the 16 block words by `n` schedule words. -/
def extendW (w : List ℕ) : ℕ → List ℕ
  | 0 => w
  | n + 1 =>
    let prev := extendW w n
    let at_ := fun i : ℕ => prev.getD (prev.length - i) 0
    prev ++ [w32 (smallSigma1 (at_ 2) + at_ 7 + smallSigma0 (at_ 15) + at_ 16)]

/-- Compress one 64-byte block into the running state. -/
def shaBlock (s : ShaState) (block : List ℕ) : ShaState :=
  let w16 := (List.range 16).map fun i => beWord ((block.drop (4 * i)).take 4)
  let ws := extendW w16 48
  let r := (shaK.zip ws).foldl (fun acc kw => shaRound acc kw.1 kw.2) s
  ⟨w32 (s.a + r.a), w32 (s.b + r.b), w32 (s.c + r.c), w32 (s.d + r.d),
    w32 (s.e + r.e), w32 (s.f + r.f), w32 (s.g + r.g), w32 (s.h + r.h)⟩

/-- `n` big-endian bytes of a natural. -/
def beBytes (n : ℕ) (v : ℕ) : List ℕ :=
  (List.range n).map fun i => (v >>> (8 * (n - 1 - i))) % 256

/-- SHA-256 padding: 0x80, zeros to 56 mod 64, then the 64-bit
big-endian bit length. -/
def shaPad (msg : List ℕ) : List ℕ :=
  let z := (120 - (msg.length + 1) % 64) % 64
  msg ++ 0x80 :: List.replicate z 0 ++ beBytes 8 (8 * msg.length)

/-- Split into 64-byte chunks. -/
def chunks64 (l : List ℕ) : List (List ℕ) :=
  if l = [] then [] else l.take 64 :: chunks64 (l.drop 64)
  termination_by l.length
  decreasing_by
    simp only [List.length_drop]
    rename_i h
    have : 0 < l.length := List.length_pos.mpr h
    omega

/-- The eight digest words of a final state. -/
def digestWords (s : ShaState) : List ℕ := [s.a, s.b, s.c, s.d, s.e, s.f, s.g, s.h]

/-- SHA-256 digest (as eight 32-bit words) of a byte sequence. -/
def sha256Words (msg : List ℕ) : List ℕ :=
  digestWords ((chunks64 (shaPad msg)).foldl shaBlock shaInit)

/-- The sixteen uppercase hexadecimal digits. `hexdigest()` produces
lowercase digits and the caller applies `.upper()`; the two steps are
fused into an uppercase digit table. -/
def hexChars : List Char := "0123456789ABCDEF".data

def hexDigit (n : ℕ) : Char := hexChars.getD n '0'

/-- Eight uppercase hex characters of a 32-bit word, most significant
nibble first. -/
def hexWordChars (w : ℕ) : List Char :=
  (List.range 8).map fun i => hexDigit ((w >>> (4 * (7 - i))) % 16)

/-- The uppercase hexadecimal digest characters of a byte sequence. -/
def sha256HexChars (msg : List ℕ) : List Char :=
  (sha256Words msg).foldr (fun w acc => hexWordChars w ++ acc) []

/-- UTF-8 encoding of one character (`str.encode("utf-8")`). -/
def utf8Bytes (c : Char) : List ℕ :=
  let n := c.toNat
  if n < 0x80 then [n]
  else if n < 0x800 then
    [0xC0 ||| (n >>> 6), 0x80 ||| (n &&& 0x3F)]
  else if n < 0x10000 then
    [0xE0 ||| (n >>> 12), 0x80 ||| ((n >>> 6) &&& 0x3F), 0x80 ||| (n &&& 0x3F)]
  else
    [0xF0 ||| (n >>> 18), 0x80 ||| ((n >>> 12) &&& 0x3F),
      0x80 ||| ((n >>> 6) &&& 0x3F), 0x80 ||| (n &&& 0x3F)]

/-- UTF-8 bytes of a string. -/
def strBytes (s : String) : List ℕ := s.data.foldr (fun c acc => utf8Bytes c ++ acc) []

/-- `compute_project_id` (custom_tool_service.py lines 370-372):
`sha256(f"{name}:{path}".encode("utf-8")).hexdigest().upper()[:16]`.
The `[:16]` slice is modelled as a 16-character take on the digest's
character list. -/
def computeProjectId (projectName projectPath : String) : String :=
  String.mk ((sha256HexChars (strBytes (projectName ++ ":" ++ projectPath))).take 16)

/-! ### Tool sync from live Unity instances (`_sync_all_unity_tools`) -/

/-- One discovered host instance (`pool.discover_all_instances()`):
name, filesystem path, hash, and the pool's instance id. The discovery
pool lives in `unity_connection.py`, an external collaborator of the
embedded core; instances are environment data here. -/
structure DiscoveredInstance where
  id : String
  name : String
  path : String
  hash : String

/-- The environment of one sync sweep: the wall clock read by
`time.time()`, the discovery result (`none` models
`discover_all_instances` raising, swallowed by the outer handler), and
each instance's reply to the `"list_csharp_tools"` introspection
command (`none` models the transport call raising, swallowed by the
per-instance handler). -/
structure SyncEnv where
  now : ℚ
  instances : Option (List DiscoveredInstance)
  reply : String → Option PyVal

/-- Validation of one pydantic model field of declared type `str`:
a non-string raises `ValidationError`. -/
def strField : PyVal → Option String
  | .pystr s => some s
  | _ => none

/-- Validation of a field of declared type `str | None`. -/
def optStrField : PyVal → Option (Option String)
  | .pynone => some none
  | .pystr s => some (some s)
  | _ => none

/-- Validation of a field of declared type `bool`. Pydantic's lax
coercions of 0/1 and "true"-like strings are not modelled; every value
the embedded call sites feed these fields is already a `bool`. -/
def boolField : PyVal → Option Bool
  | .pybool b => some b
  | _ => none

/-- Outcome of converting one descriptor from the `"tools"` list
(custom_tool_service.py lines 206-238): `abortInstance` models a
`TypeError`/`KeyError` escaping the inner `try` (which catches only
`ValidationError`) and hitting the per-instance handler, ending that
instance's sync; `skip` models `continue` (missing `name`) or a
`ValidationError`; `reg` is a validated definition whose
`auto_register` flag was absent or truthy. -/
inductive ToolConvRes where
  | abortInstance
  | skip
  | reg (d : ToolDefinitionModel)

/-- Convert one entry of the descriptor's `parameters` list into a
`ToolParameterModel` (lines 215-222). `p["name"]` on a non-dict raises
`TypeError`, on a dict without `"name"` raises `KeyError` — both abort
the instance; a wrongly typed field raises `ValidationError`, skipping
the tool. -/
def convParam (p : PyVal) : ToolConvRes ⊕ ToolParameterModel :=
  match p with
  | .pydict d =>
    match alookup "name" d with
    | none => .inl .abortInstance  -- KeyError: p["name"]
    | some nameV =>
      match strField nameV, optStrField (PyVal.pyGet d "description"),
          strField (PyVal.pyGetD d "type" (.pystr "string")),
          boolField (PyVal.pyGetD d "required" (.pybool true)) with
      | some n, some desc, some ty, some req =>
        .inr { name := n, description := desc, type := ty, required := req,
               default_value := PyVal.pyGet d "default_value" }
      | _, _, _, _ => .inl .skip  -- ValidationError
  | _ => .inl .abortInstance  -- TypeError: p["name"] on a non-dict

/-- Convert the whole `parameters` list, stopping at the first failure
(Python raises at the first bad entry). -/
def convParams (ps : List PyVal) : ToolConvRes ⊕ List ToolParameterModel :=
  match ps with
  | [] => .inr []
  | p :: rest =>
    match convParam p with
    | .inl r => .inl r
    | .inr pm =>
      match convParams rest with
      | .inl r => .inl r
      | .inr pms => .inr (pm :: pms)

/-- Convert one tool descriptor (lines 206-238). -/
def convTool (toolData : PyVal) : ToolConvRes :=
  match toolData with
  | .pydict d =>
    match alookup "name" d with
    | none => .skip  -- `if "name" not in tool_data: continue`
    | some nameV =>
      let paramsRaw := PyVal.pyGetD d "parameters" (.pylist [])
      match paramsRaw with
      | .pylist ps =>
        match convParams ps with
        | .inl r => r
        | .inr pms =>
          match strField nameV, optStrField (PyVal.pyGet d "description"),
              boolField (PyVal.pyGetD d "structured_output" (.pybool true)),
              boolField (PyVal.pyGetD d "requires_polling" (.pybool false)),
              strField (PyVal.pyGetD d "poll_action" (.pystr "status")) with
          | some n, some desc, some so, some rp, some pa =>
            if (PyVal.pyGetD d "auto_register" (.pybool true)).truthy then
              .reg { name := n, description := desc, structured_output := so,
                     requires_polling := rp, poll_action := some pa, parameters := pms }
            else .skip  -- validated, but auto_register is falsy
          | _, _, _, _, _ => .skip  -- ValidationError
      | _ => .abortInstance  -- iterating a non-list `parameters` raises TypeError
  | _ => .abortInstance  -- `"name" not in tool_data` on a non-dict raises TypeError

/-- Register the descriptors of one instance's `"tools"` list in order;
an instance-aborting error keeps the registrations already performed
(the per-instance handler catches after the mutation). -/
def syncToolsList (projectId : String) (ts : List PyVal) (st : ServiceState) : ServiceState :=
  match ts with
  | [] => st
  | td :: rest =>
    match convTool td with
    | .abortInstance => st
    | .skip => syncToolsList projectId rest st
    | .reg d => syncToolsList projectId rest (registerTool st projectId d)

/-- Sync one instance (lines 190-241): request `"list_csharp_tools"`,
require a dict reply carrying `"tools"`, then register its descriptors
under the instance's computed project id. Every failure is swallowed
by the per-instance handler. -/
def syncInstance (env : SyncEnv) (st : ServiceState) (inst : DiscoveredInstance) : ServiceState :=
  match env.reply inst.id with
  | none => st  -- transport raised; caught per-instance
  | some r =>
    match r with
    | .pydict d =>
      match alookup "tools" d with
      | none => st  -- `"tools" not in response` → continue
      | some (.pylist ts) => syncToolsList (computeProjectId inst.name inst.path) ts st
      | some _ => st  -- `for tool_data in response["tools"]` on a non-list raises; caught
    | _ => st  -- `not isinstance(response, dict)` → continue

/-- `CustomToolService._sync_all_unity_tools` (lines 180-244): throttled
to one run per 5 seconds unless forced; updates `_last_sync_time`
before discovering, then syncs each discovered instance in isolation. -/
def syncAll (env : SyncEnv) (force : Bool) (st : ServiceState) : ServiceState :=
  if !force ∧ env.now - st.lastSyncTime < 5 then st
  else
    let st1 := { st with lastSyncTime := env.now }
    match env.instances with
    | none => st1  -- discovery raised; caught by the outer handler
    | some insts => insts.foldl (syncInstance env) st1

/-- The definitions locally registered for a project, in insertion
order (`self._project_tools.get(project_id, {}).values()`). -/
def toolValues (st : ServiceState) (projectId : String) : List ToolDefinitionModel :=
  ((alookup projectId st.projectTools).getD []).map Prod.snd

/-- `CustomToolService.list_registered_tools` (lines 89-104): run a
(non-forced) sync, then concatenate the local definitions with the
hub's tools for the project. `hubTools` is the external
`PluginHub.get_tools_for_project` collaborator. -/
def listRegisteredTools (env : SyncEnv) (hubTools : String → List ToolDefinitionModel)
    (st : ServiceState) (projectId : String) : ServiceState × List ToolDefinitionModel :=
  let st1 := syncAll env false st
  (st1, toolValues st1 projectId ++ hubTools projectId)

/-- `CustomToolService.get_tool_definition` (lines 106-121): cache,
then a non-forced sync and recheck, then the hub fallback
(`PluginHub.get_tool_definition`). -/
def getToolDefinition (env : SyncEnv) (hubDef : String → String → Option ToolDefinitionModel)
    (st : ServiceState) (projectId toolName : String) :
    ServiceState × Option ToolDefinitionModel :=
  match alookup toolName ((alookup projectId st.projectTools).getD []) with
  | some t => (st, some t)
  | none =>
    let st1 := syncAll env false st
    match alookup toolName ((alookup projectId st1.projectTools).getD []) with
    | some t => (st1, some t)
    | none => (st1, hubDef projectId toolName)

/-- The environment of one `execute_tool` call: the sync environment,
the hub's definition lookup, the outcome of the initial dispatch
through `send_with_unity_instance`, and the outcomes of the successive
poll re-dispatches. Command parameters influence only what travels on
the wire, so they are absorbed into these outcome streams. -/
structure ExecEnv where
  sync : SyncEnv
  hubDef : String → String → Option ToolDefinitionModel
  initialDispatch : PollReply
  pollReplies : ℕ → PollReply

/-- The not-found failure Result of `execute_tool` (lines 141-145). -/
def notFoundResponse (toolName projectId : String) : MCPResponse :=
  { success := .pybool false
    message := .pystr ("Tool '" ++ toolName ++ "' not found for project " ++ projectId)
    error := .pynone
    data := .pynone }

/-- `CustomToolService.execute_tool` (lines 123-167): resolve the
definition (cache → throttled sync → hub, then once more after a forced
sync), dispatch, and either normalize immediately or drive the poll
loop. `.error` is an exception escaping to the caller (only the initial
dispatch can raise — the poll loop swallows its own); `.ok none` means
the poll loop's fuel ran out. -/
def executeTool (env : ExecEnv) (st : ServiceState) (projectId toolName : String)
    (fuel : ℕ) : ServiceState × Except String (Option MCPResponse) :=
  let res1 := getToolDefinition env.sync env.hubDef st projectId toolName
  let res2 :=
    match res1.2 with
    | some d => (res1.1, some d)
    | none =>
      -- "One last try to sync" (force=True), then resolve again
      getToolDefinition env.sync env.hubDef (syncAll env.sync true res1.1) projectId toolName
  match res2.2 with
  | none => (res2.1, .ok (some (notFoundResponse toolName projectId)))
  | some d =>
    match env.initialDispatch with
    | .exn e => (res2.1, .error e)  -- the initial send is not wrapped in a try
    | .ok response =>
      if !d.requires_polling then (res2.1, .ok (some (normalizeResponse response)))
      else
        match pollLoop env.pollReplies toolName fuel 0 response 0 with
        | some out => (res2.1, .ok (some out.1))
        | none => (res2.1, .ok none)

/-! ### Identity resolution (`resolve_project_id_for_unity_instance`) -/

/-- Step 1 of `resolve_project_id_for_unity_instance` (lines 380-406):
match the token against discovered instances — composite
`name@hashPrefix` needs an exact name plus hash-prefix match, a bare
token an id or hash-prefix match — and return the matched instance's
computed project id. A `none` discovery result models the pool raising;
the failure is swallowed. -/
def localResolve (instances : Option (List DiscoveredInstance)) (tok : String) : Option String :=
  match instances with
  | none => none
  | some insts =>
    let target :=
      if strContains tok '@' then
        let namePart := partBefore tok
        let hashHint := partAfter tok
        insts.find? fun inst => inst.name == namePart && pyStartsWith inst.hash hashHint
      else
        insts.find? fun inst => inst.id == tok || pyStartsWith inst.hash tok
    target.map fun inst => computeProjectId inst.name inst.path

/-- The hash portion of an instance token: the suffix after `"@"`, or
the whole token when it has no `"@"`. -/
def hashPortion (tok : String) : String :=
  if strContains tok '@' then partAfter tok else tok

/-- Step 2 of `resolve_project_id_for_unity_instance` (lines 408-430):
reject an empty hash portion (`hash_part = suffix or None` /
`if hash_part:` both treat `""` as absent, falling through to `return
None`), then prefer the hub's hash-table mapping when it is truthy
(`if mapped:`) and otherwise fall back to the lowercased hash itself.
`service` is the `CustomToolService` singleton state, `none` when
`get_instance()` raises `RuntimeError`. -/
def hubHashResolve (service : Option ServiceState) (hp : String) : Option String :=
  if hp = "" then none
  else
    let lowered := pyLower hp
    let mapped :=
      match service with
      | none => none  -- RuntimeError from CustomToolService.get_instance()
      | some sv => getProjectIdForHash sv (some lowered)
    match mapped with
    | some m => if m = "" then some lowered else some m  -- `if mapped:`
    | none => some lowered

/-- `resolve_project_id_for_unity_instance` (lines 375-432): local
discovery resolution first, then the hub hash-table step on the
token's hash portion. -/
def resolveProjectIdForUnityInstance (instances : Option (List DiscoveredInstance))
    (service : Option ServiceState) (unityInstance : Option String) : Option String :=
  match unityInstance with
  | none => none
  | some tok =>
    match localResolve instances tok with
    | some pid => some pid
    | none => hubHashResolve service (hashPortion tok)

/-! ### Framed byte-stream connections (`uds_connection.py`, `pipe_connection.py`)

`send_command` is embedded as a state transition on the connection's
handle slot. The wire exchange (header/body writes and reads) is
collapsed into one environment outcome describing how the framed round
trip ends; payload serialization (`json.dumps` of a dict-shaped params
object) is assumed to succeed, as the claims under verification scope
to transport and host-reported failures. -/

/-- How the framed write-then-read round trip of one exchange ends. -/
inductive WireOutcome where
  | ioFail (msg : String)   -- BrokenPipeError/ConnectionResetError (UDS); pywintypes.error (pipe)
  | shortRead               -- a zero/short read before the expected byte count
  | badBody                 -- body that fails UTF-8 decoding / JSON parsing
  | reply (body : PyVal)    -- a fully framed, parsed JSON response body

/-- Environment of one `send_command` call. -/
structure ConnEnv where
  connectOk : Bool          -- endpoint present and handshake read succeeds
  outcome : WireOutcome

/-- Connection object state: the socket / pipe handle slot (`None` when
torn down). -/
structure ConnState where
  handle : Option Unit

/-- The exception classes `send_command` can let escape. -/
inductive SendErr where
  | notConnected (msg : String)  -- ConnectionError before any exchange
  | connBroken (msg : String)    -- ConnectionError raised from the broken-channel handler
  | connClosed (msg : String)    -- ConnectionError re-raised from a short/closed read
  | domainError (err : PyVal)    -- Exception(resp_json.get("error")) for status == "error"
  | other (msg : String)         -- any other exception, re-raised by the generic handler

/-- `UnityUdsConnection.connect` (uds_connection.py lines 26-48):
idempotent; on failure the socket slot stays `None`. -/
def udsConnect (env : ConnEnv) (st : ConnState) : ConnState × Bool :=
  match st.handle with
  | some _ => (st, true)
  | none => if env.connectOk then (⟨some ()⟩, true) else (⟨none⟩, false)

/-- `resp_json.get("status") == "error"`: Python string equality — true
exactly when the value under `"status"` is the string `"error"`. -/
def isErrorStatus (d : List (String × PyVal)) : Bool :=
  match PyVal.pyGet d "status" with
  | .pystr s => s = "error"
  | _ => false

/-- The shared framed-exchange body of both `send_command` variants
(uds lines 72-104, pipe lines 93-130), entered with a live handle:
every failure path runs `self.disconnect()` before raising. A non-dict
JSON body makes `resp_json.get("status")` raise `AttributeError`,
caught by the generic handler. -/
def exchange (env : ConnEnv) (commandType : String) (brokenMsg closedMsg : String) :
    ConnState × Except SendErr PyVal :=
  match env.outcome with
  | .ioFail m => (⟨none⟩, .error (.connBroken (brokenMsg ++ m)))
  | .shortRead => (⟨none⟩, .error (.connClosed closedMsg))
  | .badBody => (⟨none⟩, .error (.other "invalid response body"))
  | .reply body =>
    match body with
    | .pydict d =>
      if isErrorStatus d then (⟨none⟩, .error (.domainError (PyVal.pyGet d "error")))
      else if commandType = "ping" then (⟨some ()⟩, .ok (.pydict [("message", .pystr "pong")]))
      else (⟨some ()⟩, .ok (PyVal.pyGetD d "result" (.pydict [])))
    | _ => (⟨none⟩, .error (.other "AttributeError: response body is not an object"))

/-- `UnityUdsConnection.send_command` (uds_connection.py lines 58-104). -/
def udsSendCommand (env : ConnEnv) (st : ConnState) (commandType : String) :
    ConnState × Except SendErr PyVal :=
  match st.handle with
  | none =>
    match udsConnect env st with
    | (st1, false) => (st1, .error (.notConnected "Not connected to Unity UDS"))
    | (_, true) => exchange env commandType "UDS broken: " "Connection closed during read"
  | some _ => exchange env commandType "UDS broken: " "Connection closed during read"

/-- `UnityPipeConnection.send_command` (pipe_connection.py lines
80-130); identical control flow with the platform's messages (the
short-header check raises `ConnectionError("Pipe closed or incomplete
header")` inside the `try`, re-raised by the generic handler after
`disconnect()`). -/
def pipeSendCommand (env : ConnEnv) (st : ConnState) (commandType : String) :
    ConnState × Except SendErr PyVal :=
  match st.handle with
  | none =>
    match udsConnect env st with
    | (st1, false) => (st1, .error (.notConnected "Not connected to Unity Pipe"))
    | (_, true) => exchange env commandType "Pipe broken: " "Pipe closed or incomplete header"
  | some _ => exchange env commandType "Pipe broken: " "Pipe closed or incomplete header"

/-! ### Spec-side definitions and concrete scenario data -/

/-- The spec's poll-classification table for dict-shaped responses,
written from the words of §4.4: "no status marker present and payload
empty → pending (default interval); no status marker and non-empty
payload → final; explicit marker \"pending\" → pending, with interval
taken from a hint field, coerced to a number, clamped to [0.1, 5.0],
defaulting to 1.0 on absence or parse failure; explicit \"complete\" →
complete; explicit \"error\" → error; any other value → final". To be
compared against `interpretStatus`, which is translated from the
source. -/
def specPollClassify (d : List (String × PyVal)) : PollSt × ℚ :=
  match PyVal.pyGet d "_mcp_status" with
  | .pynone =>
    if d.isEmpty then (.pending, defaultPollInterval) else (.final, defaultPollInterval)
  | .pystr s =>
    if s = "pending" then
      let coerced := (pyFloat (PyVal.pyGet d "_mcp_poll_interval")).getD defaultPollInterval
      (.pending, max 0.1 (min coerced 5))
    else if s = "complete" then (.complete, defaultPollInterval)
    else if s = "error" then (.error, defaultPollInterval)
    else (.final, defaultPollInterval)
  | _ => (.final, defaultPollInterval)

/-- Is this Python value a dict? -/
def isPyDict : PyVal → Bool
  | .pydict _ => true
  | _ => false

/-- A transport response that is neither `None` nor a dict (a string, a
number, a list, a bool, or a pre-normalized `MCPResponse` object). -/
def nonDictNonNone : Resp → Bool
  | .val (.pydict _) => false
  | .val .pynone => false
  | _ => true

/-- A poll re-dispatch outcome that is an actual reply (no exception)
classified `pending` by `_interpret_status`. -/
def pendingReply (pr : PollReply) : Prop :=
  ∃ r, pr = .ok r ∧ (interpretStatus r).1 = .pending

/-- A live instance used in the C6 scenario. -/
def c6Inst : DiscoveredInstance := ⟨"i1", "n", "p", "h"⟩

/-- A sync environment in which the live instance `c6Inst` offers one
tool `"t"`, and the wall clock reads 1 second. -/
def c6Env : SyncEnv :=
  { now := 1
    instances := some [c6Inst]
    reply := fun _ => some (.pydict [("tools", .pylist [.pydict [("name", .pystr "t")]])]) }

/-- The definition the sync derives from the `"t"` descriptor (all
defaulted fields). -/
def c6Def : ToolDefinitionModel := { name := "t" }

/-- A poll response that is always `pending` with a 5.0s interval
hint. -/
def c3Pend : Resp :=
  .val (.pydict [("_mcp_status", .pystr "pending"), ("_mcp_poll_interval", .pynum 5)])

/-- A polling-flagged tool definition. -/
def c3Def : ToolDefinitionModel := { name := "t", requires_polling := true }

/-- An execution environment whose host answers every dispatch with
`c3Pend`; the definition comes from the hub fallback. -/
def c3Env : ExecEnv :=
  { sync := { now := 0, instances := some [], reply := fun _ => none }
    hubDef := fun _ _ => some c3Def
    initialDispatch := .ok c3Pend
    pollReplies := fun _ => .ok c3Pend }

/-! ### Helper lemmas -/

theorem alookup_upsert_self {α : Type} (k : String) (v : α) (l : List (String × α)) :
    alookup k (upsert k v l) = some v := by
  induction l with
  | nil => simp [upsert, alookup]
  | cons hd tl ih =>
    obtain ⟨k', v'⟩ := hd
    by_cases h : k' = k
    · subst h
      simp [upsert, alookup]
    · simp [upsert, alookup, h, ih]

theorem alookup_upsert_other {α : Type} {k k' : String} (hne : k' ≠ k) (v : α)
    (l : List (String × α)) : alookup k' (upsert k v l) = alookup k' l := by
  induction l with
  | nil => simp [upsert, alookup, Ne.symm hne]
  | cons hd tl ih =>
    obtain ⟨k₀, v₀⟩ := hd
    by_cases h : k₀ = k
    · subst h
      simp [upsert, alookup, Ne.symm hne]
    · simp [upsert, alookup, h, ih]

theorem alookup_upsert_isSome {α : Type} {k' : String} (k : String) (v : α)
    {l : List (String × α)} (h : (alookup k' l).isSome) :
    (alookup k' (upsert k v l)).isSome := by
  by_cases hk : k' = k
  · subst hk
    simp [alookup_upsert_self]
  · rwa [alookup_upsert_other hk]

/-- Every interval `_interpret_status` produces is at least 0.1
seconds (the defaults are 1.0, and explicit hints are clamped). -/
theorem interp_interval_ge (r : Resp) : (0.1 : ℚ) ≤ (interpretStatus r).2 := by
  unfold interpretStatus
  repeat' split
  all_goals dsimp only
  all_goals first
    | exact le_max_left _ _
    | norm_num [defaultPollInterval]

/-- A response classified `pending` is either `None` or a dict, so
`_safe_response` is the identity on its underlying value. -/
theorem pending_shape {r : Resp} (h : (interpretStatus r).1 = .pending) :
    ∃ v, r = .val v ∧ safeResponse r = v := by
  rcases r with v | m
  · rcases v with _ | b | q | s | xs | d
    · exact ⟨.pynone, rfl, rfl⟩
    · simp [interpretStatus] at h
    · simp [interpretStatus] at h
    · simp [interpretStatus] at h
    · simp [interpretStatus] at h
    · exact ⟨.pydict d, rfl, rfl⟩
  · simp [interpretStatus] at h

/-- A `pending` classification rules the terminal branch out. -/
theorem pending_not_terminal {r : Resp} (h : (interpretStatus r).1 = .pending) :
    ¬((interpretStatus r).1 = .complete ∨ (interpretStatus r).1 = .error ∨
      (interpretStatus r).1 = .final) := by
  rw [h]
  intro hc
  rcases hc with hc | hc | hc <;> cases hc

/-- Fuel sufficiency for the poll loop: once the fuel exceeds ten times
the remaining seconds before the deadline, the loop returns (each
iteration either returns or advances the clock by at least 0.1s). -/
theorem pollLoop_isSome (replies : ℕ → PollReply) (toolName : String) :
    ∀ (fuel : ℕ) (t : ℚ) (r : Resp) (k : ℕ), 1 ≤ fuel →
      10 * (maxPollSeconds - t) + 1 < (fuel : ℚ) →
      (pollLoop replies toolName fuel t r k).isSome := by
  intro fuel
  induction fuel with
  | zero => intro t r k h1 _; omega
  | succ fuel ih =>
    intro t r k _ hbound
    by_cases hterm : (interpretStatus r).1 = .complete ∨ (interpretStatus r).1 = .error ∨
        (interpretStatus r).1 = .final
    · simp [pollLoop, hterm]
    · by_cases htime : maxPollSeconds < t
      · simp [pollLoop, hterm, htime]
      · have hint : (0.1 : ℚ) ≤ (interpretStatus r).2 := interp_interval_ge r
        have h1' : 1 ≤ fuel := by
          rcases Nat.eq_zero_or_pos fuel with h0 | h0
          · subst h0
            push_neg at htime
            norm_num at hbound
            unfold maxPollSeconds at hbound htime
            linarith
          · exact h0
        have hbound' : 10 * (maxPollSeconds - (t + (interpretStatus r).2)) + 1 < (fuel : ℚ) := by
          push_cast at hbound ⊢
          linarith
        cases hrk : replies k with
        | ok r2 =>
          simp only [pollLoop, hterm, if_false, htime, hrk]
          exact ih (t + (interpretStatus r).2) r2 (k + 1) h1' hbound'
        | exn e =>
          simp only [pollLoop, hterm, if_false, htime, hrk]
          exact ih (t + (interpretStatus r).2) (syntheticPending (interpretStatus r).2 e)
            (k + 1) h1' hbound'

/-- When the current response and every re-dispatch reply are
classified `pending`, the poll loop (with sufficient fuel) ends in the
timeout branch, strictly past the 600-second deadline, holding a
response that is the initial one or some reply from the stream. -/
theorem pollLoop_timeout_of_pending (replies : ℕ → PollReply) (toolName : String)
    (hrep : ∀ n, pendingReply (replies n)) :
    ∀ (fuel : ℕ) (t : ℚ) (r : Resp) (k : ℕ), (interpretStatus r).1 = .pending →
      1 ≤ fuel → 10 * (maxPollSeconds - t) + 1 < (fuel : ℚ) →
      ∃ last t', pollLoop replies toolName fuel t r k =
          some (timeoutResponse toolName last, t', last)
        ∧ maxPollSeconds < t'
        ∧ ((interpretStatus last).1 = .pending)
        ∧ (last = r ∨ ∃ n, replies n = .ok last) := by
  intro fuel
  induction fuel with
  | zero => intro t r k _ h1 _; omega
  | succ fuel ih =>
    intro t r k hp _ hbound
    have hterm := pending_not_terminal hp
    by_cases htime : maxPollSeconds < t
    · refine ⟨r, t, ?_, htime, hp, Or.inl rfl⟩
      simp [pollLoop, hterm, htime]
    · have hint : (0.1 : ℚ) ≤ (interpretStatus r).2 := interp_interval_ge r
      have h1' : 1 ≤ fuel := by
        rcases Nat.eq_zero_or_pos fuel with h0 | h0
        · subst h0
          push_neg at htime
          norm_num at hbound
          unfold maxPollSeconds at hbound htime
          linarith
        · exact h0
      have hbound' : 10 * (maxPollSeconds - (t + (interpretStatus r).2)) + 1 < (fuel : ℚ) := by
        push_cast at hbound ⊢
        linarith
      obtain ⟨r2, hok, hp2⟩ := hrep k
      obtain ⟨last, t', heq, ht', hlast, hor⟩ :=
        ih (t + (interpretStatus r).2) r2 (k + 1) hp2 h1' hbound'
      refine ⟨last, t', ?_, ht', hlast, ?_⟩
      · simp only [pollLoop, hterm, if_false, htime, hok]
        exact heq
      · rcases hor with h | h
        · exact Or.inr ⟨k, h ▸ hok⟩
        · exact Or.inr h

/-- The interval coercion of `_interpret_status` (default applied
through `dict.get`, then `float(...)` with a try/except fallback)
agrees with coercing the bare hint and defaulting on failure. -/
theorem interval_coerce_eq (d : List (String × PyVal)) :
    (match pyFloat (PyVal.pyGetD d "_mcp_poll_interval" (.pynum defaultPollInterval)) with
      | some q => q
      | none => defaultPollInterval) =
      (pyFloat (PyVal.pyGet d "_mcp_poll_interval")).getD defaultPollInterval := by
  unfold PyVal.pyGetD PyVal.pyGet
  cases PyVal.lookup d "_mcp_poll_interval" with
  | none => simp [pyFloat]
  | some v =>
    cases hf : pyFloat v <;> simp [hf]

/-! ### Claim theorems -/

/-- C1: the claim states that a dict-shaped response carrying
`_mcp_status = "error"` is normalized with `success = false` even
without an explicit `success` field. The code does the opposite: the
early dict return of `_normalize_response` (line 329) applies only the
`success` default of `True` and never reaches the marker check at
lines 345-346, which line 329's return leaves as dead code. Evaluating
the embedded `_normalize_response` at `{"_mcp_status": "error"}` yields
`success = True` (and the whole dict as `data`). -/
theorem normalize_error_marker_keeps_success_true :
    normalizeResponse (.val (.pydict [("_mcp_status", .pystr "error")])) =
      { success := .pybool true
        message := .pynone
        error := .pynone
        data := .pydict [("_mcp_status", .pystr "error")] } := rfl

/-- C2: for every dict-shaped poll response, `_interpret_status`
returns exactly the spec's PollState table (`specPollClassify`, written
from the spec's words): empty dict → pending with the 1.0s default;
non-empty dict without a marker → final; marker `"pending"` → pending
with the hint coerced, clamped to [0.1, 5.0], defaulting to 1.0 on
absence or parse failure; `"complete"` → complete; `"error"` → error;
any other marker → final. -/
theorem interpret_status_matches_spec_table (d : List (String × PyVal)) :
    interpretStatus (.val (.pydict d)) = specPollClassify d := by
  unfold interpretStatus specPollClassify
  dsimp only
  rcases hpg : PyVal.pyGet d "_mcp_status" with _ | b | q | s | xs | d2
  case pynone =>
    by_cases hd : d = [] <;> simp [hd, List.length_eq_zero, List.isEmpty_iff]
  case pystr =>
    dsimp only
    split_ifs <;> simp [interval_coerce_eq]
  all_goals rfl

/-- C10: `_interpret_status` classifies a `None` response as pending
with the default 1.0s interval, and every non-`None`, non-dict response
(including a pre-normalized `MCPResponse` object) as final with the
default interval; consequently a single non-dict reply makes the poll
loop return immediately with the normalized response. -/
theorem none_pending_nondict_final :
    interpretStatus (.val .pynone) = (.pending, defaultPollInterval)
    ∧ (∀ r : Resp, nonDictNonNone r = true →
        interpretStatus r = (.final, defaultPollInterval))
    ∧ (∀ (replies : ℕ → PollReply) (toolName : String) (fuel : ℕ) (t : ℚ) (k : ℕ)
        (r : Resp), nonDictNonNone r = true →
        pollLoop replies toolName (fuel + 1) t r k = some (normalizeResponse r, t, r)) := by
  have hfin : ∀ r : Resp, nonDictNonNone r = true →
      interpretStatus r = (.final, defaultPollInterval) := by
    intro r h
    rcases r with v | m
    · rcases v with _ | b | q | s | xs | d <;>
        simp_all [nonDictNonNone, interpretStatus]
    · rfl
  refine ⟨rfl, hfin, ?_⟩
  intro replies toolName fuel t k r h
  have h2 := hfin r h
  simp [pollLoop, h2]

/-- C10 witness: the theorem applied to the string reply `"done"` at
`fuel = 1`, `t = 0`. -/
theorem none_pending_nondict_final_witness :
    interpretStatus (.val (.pystr "done")) = (.final, defaultPollInterval)
    ∧ pollLoop (fun _ => .exn "e") "tool" 1 0 (.val (.pystr "done")) 0 =
        some (normalizeResponse (.val (.pystr "done")), 0, .val (.pystr "done")) :=
  ⟨none_pending_nondict_final.2.1 _ rfl,
    none_pending_nondict_final.2.2 (fun _ => .exn "e") "tool" 0 0 0 _ rfl⟩

/-- C4: a transport-level exception during a poll re-dispatch is not
fatal: (1) when the current response is `pending` and the deadline has
not passed, an exception in the `k`-th re-dispatch makes the loop
continue with a synthetic pending response in place of a reply; (2) the
synthetic response is classified `pending` with next interval exactly
`min(max(previousInterval * 2, 1.0), 5.0)`; (3) with fuel for the
600-second deadline the loop always reaches a returned outcome
(terminal response or timeout) for every reply stream. -/
theorem poll_transport_failure_recovery :
    (∀ (replies : ℕ → PollReply) (toolName : String) (fuel : ℕ) (t : ℚ) (r : Resp)
      (k : ℕ) (e : String),
      (interpretStatus r).1 = .pending → ¬maxPollSeconds < t → replies k = .exn e →
      pollLoop replies toolName (fuel + 1) t r k =
        pollLoop replies toolName fuel (t + (interpretStatus r).2)
          (syntheticPending (interpretStatus r).2 e) (k + 1))
    ∧ (∀ (i : ℚ) (e : String),
        interpretStatus (syntheticPending i e) =
          (.pending, min (max (i * 2) defaultPollInterval) 5))
    ∧ (∀ (replies : ℕ → PollReply) (toolName : String) (r : Resp),
        (pollLoop replies toolName 6002 0 r 0).isSome) := by
  refine ⟨?_, ?_, ?_⟩
  · intro replies toolName fuel t r k e hp hnt hk
    have hterm := pending_not_terminal hp
    simp only [pollLoop, if_neg hterm, if_neg hnt, hk]
  · intro i e
    have hbase : interpretStatus (syntheticPending i e) =
        (.pending, max 0.1 (min (min (max (i * 2) defaultPollInterval) 5) 5)) := rfl
    rw [hbase]
    have h5 : min (max (i * 2) defaultPollInterval) 5 ≤ 5 := min_le_right _ _
    have h1 : (0.1 : ℚ) ≤ min (max (i * 2) defaultPollInterval) 5 := by
      refine le_min (le_trans ?_ (le_max_right _ _)) (by norm_num)
      norm_num [defaultPollInterval]
    rw [min_eq_left h5, max_eq_right h1]
  · intro replies toolName r
    apply pollLoop_isSome replies toolName 6002 0 r 0 (by norm_num)
    norm_num [maxPollSeconds]

/-- C4 witness: the theorem applied to a stream failing at re-dispatch
0 with the empty-dict pending response (interval 1.0) at `t = 0`. -/
theorem poll_transport_failure_recovery_witness :
    pollLoop (fun _ => .exn "boom") "tool" 3 0 (.val (.pydict [])) 0 =
      pollLoop (fun _ => .exn "boom") "tool" 2
        (0 + (interpretStatus (.val (.pydict []))).2)
        (syntheticPending (interpretStatus (.val (.pydict []))).2 "boom") 1
    ∧ interpretStatus (syntheticPending 1 "boom") =
        (.pending, min (max (1 * 2) defaultPollInterval) 5)
    ∧ (pollLoop (fun _ => .exn "boom") "tool" 6002 0 (.val (.pydict [])) 0).isSome :=
  ⟨poll_transport_failure_recovery.1 _ _ 2 0 _ 0 "boom" rfl
      (by norm_num [maxPollSeconds]) rfl,
    poll_transport_failure_recovery.2.1 1 "boom",
    poll_transport_failure_recovery.2.2 _ _ _⟩

/-- C3: when the tool definition resolves to one flagged
`requires_polling`, the initial dispatch returns a `pending`-classified
response, and every poll re-dispatch returns a `pending`-classified
reply, `execute_tool` (with fuel covering the deadline) returns — it
never raises — the timeout failure Result: `success = false`, a
timeout message naming the tool, produced strictly after the
600-second deadline (`maxPollSeconds ≤ t`), with the data payload equal
to the last raw response received. -/
theorem execute_tool_poll_timeout (env : ExecEnv) (st : ServiceState)
    (projectId toolName : String) (d : ToolDefinitionModel)
    (hdef : (getToolDefinition env.sync env.hubDef st projectId toolName).2 = some d)
    (hpolling : d.requires_polling = true)
    (r0 : Resp) (hinit : env.initialDispatch = .ok r0)
    (hp0 : (interpretStatus r0).1 = .pending)
    (hrep : ∀ n, pendingReply (env.pollReplies n)) :
    ∃ last t,
      pollLoop env.pollReplies toolName 6002 0 r0 0 =
          some (timeoutResponse toolName last, t, last)
      ∧ (executeTool env st projectId toolName 6002).2 =
          .ok (some (timeoutResponse toolName last))
      ∧ maxPollSeconds ≤ t
      ∧ (timeoutResponse toolName last).success = .pybool false
      ∧ (timeoutResponse toolName last).message =
          .pystr ("Timeout waiting for " ++ toolName ++ " to complete")
      ∧ (∃ v, last = .val v ∧ (timeoutResponse toolName last).data = v)
      ∧ (last = r0 ∨ ∃ n, env.pollReplies n = .ok last) := by
  obtain ⟨last, t, heq, ht, hlastp, hor⟩ :=
    pollLoop_timeout_of_pending env.pollReplies toolName hrep 6002 0 r0 0 hp0
      (by norm_num) (by norm_num [maxPollSeconds])
  obtain ⟨v, hv, hsafe⟩ := pending_shape hlastp
  refine ⟨last, t, heq, ?_, le_of_lt ht, rfl, rfl, ⟨v, hv, ?_⟩, hor⟩
  · unfold executeTool
    rcases hgd : getToolDefinition env.sync env.hubDef st projectId toolName with ⟨st1, d1⟩
    rw [hgd] at hdef
    dsimp only at hdef
    subst hdef
    simp [hinit, hpolling, heq]
  · exact hsafe

/-- C3 witness: the theorem applied to `c3Env`, where every reply is
`pending` with a 5.0s interval. -/
theorem execute_tool_poll_timeout_witness :
    ∃ last t,
      pollLoop c3Env.pollReplies "t" 6002 0 c3Pend 0 =
          some (timeoutResponse "t" last, t, last)
      ∧ (executeTool c3Env {} "P" "t" 6002).2 =
          .ok (some (timeoutResponse "t" last))
      ∧ maxPollSeconds ≤ t
      ∧ (timeoutResponse "t" last).success = .pybool false
      ∧ (timeoutResponse "t" last).message =
          .pystr ("Timeout waiting for " ++ "t" ++ " to complete")
      ∧ (∃ v, last = .val v ∧ (timeoutResponse "t" last).data = v)
      ∧ (last = c3Pend ∨ ∃ n, c3Env.pollReplies n = .ok last) :=
  execute_tool_poll_timeout c3Env {} "P" "t" c3Def
    (by norm_num [getToolDefinition, alookup, syncAll, c3Env]) rfl c3Pend rfl rfl
    (fun _ => ⟨c3Pend, rfl, rfl⟩)

/-- C5 counterexample: the claim says the resolver "returns null only
when the instance token is null", but the non-null token `""` — whose
hash portion is empty — resolves to `None` even with discovery and the
service both available. -/
theorem resolve_nonnull_token_returns_none :
    resolveProjectIdForUnityInstance (some []) (some {}) (some "") = none
    ∧ (some "" : Option String) ≠ none := by
  refine ⟨rfl, by simp⟩

/-- C5 amended: the resolver returns null when the token is null, and
also when local discovery finds no match and the token's hash portion
(the suffix after `"@"`, or the whole token without one) is empty; for
every other token it returns some identifier — the matched instance's
computed ProjectID, else the hub's (truthy) hash-table mapping for the
lowercased hash portion, else the lowercased hash portion itself. -/
theorem resolve_project_id_amended (instances : Option (List DiscoveredInstance))
    (service : Option ServiceState) :
    resolveProjectIdForUnityInstance instances service none = none
    ∧ (∀ tok pid, localResolve instances tok = some pid →
        resolveProjectIdForUnityInstance instances service (some tok) = some pid)
    ∧ (∀ tok, localResolve instances tok = none →
        resolveProjectIdForUnityInstance instances service (some tok) =
          hubHashResolve service (hashPortion tok))
    ∧ (∀ hp : String, hp ≠ "" → ∃ pid, hubHashResolve service hp = some pid)
    ∧ (∀ (hp : String) (sv : ServiceState) (m : String), hp ≠ "" → service = some sv →
        getProjectIdForHash sv (some (pyLower hp)) = some m → m ≠ "" →
        hubHashResolve service hp = some m)
    ∧ (∀ (hp : String) (sv : ServiceState), hp ≠ "" → service = some sv →
        getProjectIdForHash sv (some (pyLower hp)) = none →
        hubHashResolve service hp = some (pyLower hp))
    ∧ hubHashResolve service "" = none := by
  refine ⟨rfl, ?_, ?_, ?_, ?_, ?_, ?_⟩
  · intro tok pid h
    simp [resolveProjectIdForUnityInstance, h]
  · intro tok h
    simp [resolveProjectIdForUnityInstance, h]
  · intro hp h
    unfold hubHashResolve
    rw [if_neg h]
    rcases service with _ | sv
    · exact ⟨pyLower hp, rfl⟩
    · dsimp only
      cases hm : getProjectIdForHash sv (some (pyLower hp)) with
      | none => exact ⟨pyLower hp, by simp⟩
      | some m =>
        by_cases hme : m = ""
        · exact ⟨pyLower hp, by simp [hme]⟩
        · exact ⟨m, by simp [hme]⟩
  · intro hp sv m h hsv hget hm
    subst hsv
    simp [hubHashResolve, h, hget, hm]
  · intro hp sv h hsv hget
    subst hsv
    simp [hubHashResolve, h, hget]
  · simp [hubHashResolve]

/-- C5 witness: the amended theorem applied to a token whose lowercased
hash portion has a hub mapping, and to one that falls back to the
lowercased hash itself. -/
theorem resolve_project_id_amended_witness :
    hubHashResolve (some { hashToProject := [("ab", "PID")] }) "AB" = some "PID"
    ∧ resolveProjectIdForUnityInstance (some []) none (some "XY") = some "xy"
    ∧ resolveProjectIdForUnityInstance (some [⟨"i", "n", "p", "ab"⟩]) none (some "ab") =
        some (computeProjectId "n" "p")
    ∧ hubHashResolve (some {}) "zz" = some (pyLower "zz") := by
  refine ⟨?_, ?_, ?_, ?_⟩
  · exact (resolve_project_id_amended (some []) _).2.2.2.2.1 "AB" _ "PID"
      (by simp) rfl rfl (by simp)
  · rw [(resolve_project_id_amended (some []) none).2.2.1 "XY" rfl]
    rfl
  · exact (resolve_project_id_amended (some [⟨"i", "n", "p", "ab"⟩]) none).2.1
      "ab" (computeProjectId "n" "p") rfl
  · exact (resolve_project_id_amended (some []) (some {})).2.2.2.2.2.1 "zz" {}
      (by simp) rfl rfl

/-- C6 counterexample: the claim says every `list_registered_tools`
call forces a registry sync with the live instances. In `c6Env` a live
instance offers tool `"t"` (a forced sync would register it and the
concatenation would list it), yet a call 1 second after the previous
sync is throttled — the sync call passes `force=False` — and returns
an empty list. -/
theorem list_tools_not_forced_counterexample :
    (listRegisteredTools c6Env (fun _ => []) {} (computeProjectId "n" "p")).2 = []
    ∧ toolValues (syncAll c6Env true {}) (computeProjectId "n" "p")
        ++ (fun _ => ([] : List ToolDefinitionModel)) (computeProjectId "n" "p") = [c6Def]
    ∧ ([] : List ToolDefinitionModel) ≠ [c6Def] := by
  have hthrottle : syncAll c6Env false {} = ({} : ServiceState) := by
    unfold syncAll
    rw [if_pos ⟨rfl, by norm_num [c6Env]⟩]
  refine ⟨?_, ?_, by simp⟩
  · simp [listRegisteredTools, hthrottle, toolValues, alookup]
  · have hsync : syncAll c6Env true {} =
        { projectTools := upsert (computeProjectId "n" "p") (upsert "t" c6Def []) []
          hashToProject := []
          lastSyncTime := 1 } := by
      unfold syncAll
      rw [if_neg (by simp)]
      rfl
    rw [hsync]
    unfold toolValues
    rw [alookup_upsert_self]
    simp [upsert]

/-- C6 amended: `list_registered_tools` triggers a throttled sync
(`force=False`: it runs only when at least 5 seconds have passed since
the last sync, and then behaves exactly like a forced sync), and
returns the concatenation of the project's locally registered
definitions followed by the hub's tools, with no deduplication or
precedence. -/
theorem list_tools_throttled_sync (env : SyncEnv)
    (hub : String → List ToolDefinitionModel) (st : ServiceState) (projectId : String) :
    listRegisteredTools env hub st projectId =
      (syncAll env false st,
        toolValues (syncAll env false st) projectId ++ hub projectId)
    ∧ (env.now - st.lastSyncTime < 5 → syncAll env false st = st)
    ∧ (¬env.now - st.lastSyncTime < 5 → syncAll env false st = syncAll env true st) := by
  refine ⟨rfl, ?_, ?_⟩
  · intro h
    unfold syncAll
    rw [if_pos ⟨rfl, h⟩]
  · intro h
    unfold syncAll
    rw [if_neg (fun hc => h hc.2), if_neg (by simp)]

/-- C6 witness: the amended theorem applied to `c6Env` with an empty
registry — the call 1 second after the last sync leaves the state
untouched. -/
theorem list_tools_throttled_sync_witness :
    listRegisteredTools c6Env (fun _ => []) {} "P" =
      (syncAll c6Env false {},
        toolValues (syncAll c6Env false {}) "P" ++ (fun _ => []) "P")
    ∧ syncAll c6Env false {} = ({} : ServiceState)
    ∧ syncAll { c6Env with now := 10 } false {} =
        syncAll { c6Env with now := 10 } true {} :=
  ⟨(list_tools_throttled_sync c6Env (fun _ => []) {} "P").1,
    (list_tools_throttled_sync c6Env (fun _ => []) {} "P").2.1 (by norm_num [c6Env]),
    (list_tools_throttled_sync { c6Env with now := 10 } (fun _ => []) {} "P").2.2
      (by norm_num [c6Env])⟩

theorem isRegistered_registerTool (st : ServiceState) (projectId : String)
    (t : ToolDefinitionModel) {n : String} (h : isRegistered st projectId n = true) :
    isRegistered (registerTool st projectId t) projectId n = true := by
  unfold isRegistered at h ⊢
  unfold registerTool
  dsimp only
  rw [alookup_upsert_self]
  simpa using alookup_upsert_isSome t.name t (by simpa using h)

theorem isRegistered_registerTool_self (st : ServiceState) (projectId : String)
    (t : ToolDefinitionModel) :
    isRegistered (registerTool st projectId t) projectId t.name = true := by
  unfold isRegistered registerTool
  dsimp only
  rw [alookup_upsert_self]
  simp [alookup_upsert_self]

theorem registerLoop_preserves (projectId : String) (tools : List ToolDefinitionModel) :
    ∀ (st : ServiceState) (reg rep : List String) (n : String),
      isRegistered st projectId n = true →
      isRegistered (registerLoop projectId tools st reg rep).1 projectId n = true := by
  induction tools with
  | nil => intro st reg rep n h; simpa [registerLoop]
  | cons t rest ih =>
    intro st reg rep n h
    simp only [registerLoop]
    exact ih _ _ _ n (isRegistered_registerTool st projectId t h)

theorem registerLoop_registers (projectId : String) (tools : List ToolDefinitionModel) :
    ∀ (st : ServiceState) (reg rep : List String) (t : ToolDefinitionModel), t ∈ tools →
      isRegistered (registerLoop projectId tools st reg rep).1 projectId t.name = true := by
  induction tools with
  | nil => intro st reg rep t ht; cases ht
  | cons hd rest ih =>
    intro st reg rep t ht
    simp only [registerLoop]
    rcases List.mem_cons.mp ht with h | h
    · subst h
      exact registerLoop_preserves projectId rest _ _ _ _
        (isRegistered_registerTool_self st projectId t)
    · exact ih _ _ _ t h

theorem registerLoop_hashToProject (projectId : String) (tools : List ToolDefinitionModel) :
    ∀ (st : ServiceState) (reg rep : List String),
      (registerLoop projectId tools st reg rep).1.hashToProject = st.hashToProject := by
  induction tools with
  | nil => intro st reg rep; rfl
  | cons t rest ih =>
    intro st reg rep
    simp only [registerLoop]
    exact ih _ _ _

theorem registerBatch_projectTools (st : ServiceState) (p : RegisterToolsPayload) :
    (registerBatch st p).1.projectTools =
      (registerLoop p.project_id p.tools st [] []).1.projectTools := by
  unfold registerBatch
  rcases p.project_hash with _ | h
  · rfl
  · dsimp only
    split <;> rfl

theorem lastWithName_name {tools : List ToolDefinitionModel} {n : String}
    {t : ToolDefinitionModel} (h : lastWithName tools n = some t) : t.name = n := by
  induction tools with
  | nil => cases h
  | cons hd rest ih =>
    unfold lastWithName at h
    cases hl : lastWithName rest n with
    | some t' =>
      rw [hl] at h
      cases h
      exact ih hl
    | none =>
      rw [hl] at h
      by_cases hn : hd.name = n
      · rw [if_pos hn] at h
        cases h
        exact hn
      · rw [if_neg hn] at h
        cases h

theorem lastWithName_of_mem {tools : List ToolDefinitionModel} {t : ToolDefinitionModel}
    (h : t ∈ tools) :
    ∃ t', lastWithName tools t.name = some t' ∧ t'.name = t.name := by
  induction tools with
  | nil => cases h
  | cons hd rest ih =>
    rcases List.mem_cons.mp h with heq | hmem
    · subst heq
      cases hl : lastWithName rest t.name with
      | some t' => exact ⟨t', by simp [lastWithName, hl], lastWithName_name hl⟩
      | none => exact ⟨t, by simp [lastWithName, hl], rfl⟩
    · obtain ⟨t', hl, hn⟩ := ih hmem
      exact ⟨t', by simp [lastWithName, hl], hn⟩

/-- The definition stored under a name after one `_register_tool`
call: the incoming definition for its own name, everything else
untouched. -/
theorem lookup_registerTool (st : ServiceState) (projectId : String)
    (t : ToolDefinitionModel) (n : String) :
    alookup n ((alookup projectId (registerTool st projectId t).projectTools).getD []) =
      if t.name = n then some t
      else alookup n ((alookup projectId st.projectTools).getD []) := by
  unfold registerTool
  dsimp only
  rw [alookup_upsert_self]
  dsimp only [Option.getD_some]
  by_cases h : t.name = n
  · subst h
    rw [if_pos rfl, alookup_upsert_self]
  · rw [if_neg h, alookup_upsert_other (fun hh => h hh.symm)]

/-- After the registration loop, the definition stored under a name is
the batch's last definition with that name, and names the batch never
mentions keep their prior binding. -/
theorem registerLoop_lookup (projectId : String) (tools : List ToolDefinitionModel) :
    ∀ (st : ServiceState) (reg rep : List String) (n : String),
      alookup n ((alookup projectId (registerLoop projectId tools st reg rep).1.projectTools).getD []) =
        match lastWithName tools n with
        | some t => some t
        | none => alookup n ((alookup projectId st.projectTools).getD []) := by
  induction tools with
  | nil => intro st reg rep n; rfl
  | cons t rest ih =>
    intro st reg rep n
    simp only [registerLoop]
    rw [ih]
    cases hl : lastWithName rest n with
    | some t' => simp [lastWithName, hl]
    | none =>
      by_cases hn : t.name = n <;>
        simp [lastWithName, hl, lookup_registerTool, hn]

/-- C7: batch registration classifies and upserts — registering tool
`"move"` for a project where it is absent yields
`registered=["move"], replaced=[]`; registering it again yields
`registered=["move"], replaced=["move"]` with the message
`"Registered 1 tool(s) (replaced: move)"`; every incoming definition
ends up registered regardless of classification, and the definition the
registry then holds under a name is exactly the incoming definition —
the batch's last entry bearing that name, which exists for every
incoming tool — overwriting whatever was stored before; and a supplied
non-empty project hash is recorded lowercased, mapping to the payload's
project id, overwriting any prior binding. -/
theorem register_batch_spec :
    (∀ (P : String) (st : ServiceState) (d : ToolDefinitionModel),
      d.name = "move" → isRegistered st P "move" = false →
      (registerBatch st ⟨P, none, [d]⟩).2.registered = ["move"]
      ∧ (registerBatch st ⟨P, none, [d]⟩).2.replaced = []
      ∧ (registerBatch (registerBatch st ⟨P, none, [d]⟩).1 ⟨P, none, [d]⟩).2.registered =
          ["move"]
      ∧ (registerBatch (registerBatch st ⟨P, none, [d]⟩).1 ⟨P, none, [d]⟩).2.replaced =
          ["move"]
      ∧ (registerBatch (registerBatch st ⟨P, none, [d]⟩).1 ⟨P, none, [d]⟩).2.message =
          "Registered 1 tool(s) (replaced: move)")
    ∧ (∀ (st : ServiceState) (p : RegisterToolsPayload) (t : ToolDefinitionModel),
        t ∈ p.tools → isRegistered (registerBatch st p).1 p.project_id t.name = true)
    ∧ (∀ (st : ServiceState) (p : RegisterToolsPayload) (h : String),
        p.project_hash = some h → h ≠ "" →
        alookup (pyLower h) (registerBatch st p).1.hashToProject = some p.project_id)
    ∧ (∀ (st : ServiceState) (p : RegisterToolsPayload) (n : String)
        (t : ToolDefinitionModel), lastWithName p.tools n = some t →
        alookup n ((alookup p.project_id (registerBatch st p).1.projectTools).getD []) =
          some t)
    ∧ (∀ (p : RegisterToolsPayload) (t : ToolDefinitionModel), t ∈ p.tools →
        ∃ t', lastWithName p.tools t.name = some t' ∧ t'.name = t.name) := by
  refine ⟨?_, ?_, ?_, ?_, ?_⟩
  · intro P st d hname hreg
    have hfirst : registerBatch st ⟨P, none, [d]⟩ =
        (registerTool st P d,
          { success := true, registered := ["move"], replaced := []
            message := "Registered 1 tool(s)" }) := by
      unfold registerBatch registerLoop registerLoop
      rw [hname, hreg]
      simp
      rfl
    have hreg2 : isRegistered (registerTool st P d) P d.name = true :=
      isRegistered_registerTool_self st P d
    rw [hname] at hreg2
    have hsecond : registerBatch (registerTool st P d) ⟨P, none, [d]⟩ =
        (registerTool (registerTool st P d) P d,
          { success := true, registered := ["move"], replaced := ["move"]
            message := "Registered 1 tool(s) (replaced: move)" }) := by
      unfold registerBatch registerLoop registerLoop
      rw [hname, hreg2]
      simp
      rfl
    rw [hfirst]
    exact ⟨rfl, rfl, by rw [hsecond], by rw [hsecond], by rw [hsecond]⟩
  · intro st p t ht
    have h := registerLoop_registers p.project_id p.tools st [] [] t ht
    have hpt := registerBatch_projectTools st p
    unfold isRegistered at h ⊢
    rw [hpt]
    exact h
  · intro st p h hsome hne
    unfold registerBatch
    rw [hsome]
    dsimp only
    rw [if_neg hne]
    exact alookup_upsert_self _ _ _
  · intro st p n t h
    rw [registerBatch_projectTools, registerLoop_lookup, h]
  · intro p t ht
    exact lastWithName_of_mem ht

/-- C7 witness: the theorem applied to the empty registry with a
concrete `"move"` definition and a mixed-case project hash. -/
theorem register_batch_spec_witness :
    (registerBatch {} ⟨"P", none, [{ name := "move" }]⟩).2.registered = ["move"]
    ∧ (registerBatch (registerBatch {} ⟨"P", none, [{ name := "move" }]⟩).1
        ⟨"P", none, [{ name := "move" }]⟩).2.message =
        "Registered 1 tool(s) (replaced: move)"
    ∧ isRegistered (registerBatch {} ⟨"P", some "AB", [{ name := "move" }]⟩).1 "P" "move" =
        true
    ∧ alookup (pyLower "AB")
        (registerBatch {} ⟨"P", some "AB", [{ name := "move" }]⟩).1.hashToProject =
        some "P"
    ∧ alookup "move"
        ((alookup "P" (registerBatch {} ⟨"P", none, [{ name := "move" }]⟩).1.projectTools).getD []) =
        some { name := "move" }
    ∧ (∃ t', lastWithName [{ name := "move" }] "move" = some t' ∧ t'.name = "move") := by
  refine ⟨?_, ?_, ?_, ?_, ?_, ?_⟩
  · exact (register_batch_spec.1 "P" {} { name := "move" } rfl rfl).1
  · exact (register_batch_spec.1 "P" {} { name := "move" } rfl rfl).2.2.2.2
  · exact register_batch_spec.2.1 {} ⟨"P", some "AB", [{ name := "move" }]⟩
      { name := "move" } (by simp)
  · exact register_batch_spec.2.2.1 {} ⟨"P", some "AB", [{ name := "move" }]⟩ "AB" rfl
      (by simp)
  · exact register_batch_spec.2.2.2.1 {} ⟨"P", none, [{ name := "move" }]⟩ "move"
      { name := "move" } rfl
  · exact register_batch_spec.2.2.2.2 ⟨"P", none, [{ name := "move" }]⟩
      { name := "move" } (by simp)

theorem hexDigit_mem (n : ℕ) : hexDigit n ∈ hexChars := by
  unfold hexDigit
  rcases h : hexChars[n]? with _ | c
  · rw [List.getD_eq_getElem?_getD, h]
    simp [hexChars]
  · rw [List.getD_eq_getElem?_getD, h]
    simpa using List.getElem?_mem h

theorem sha256HexChars_length (msg : List ℕ) : (sha256HexChars msg).length = 64 := by
  unfold sha256HexChars sha256Words digestWords
  simp [hexWordChars]

theorem sha256HexChars_mem (msg : List ℕ) {c : Char} (h : c ∈ sha256HexChars msg) :
    c ∈ hexChars := by
  have hw : ∀ w, c ∈ hexWordChars w → c ∈ hexChars := by
    intro w hcw
    unfold hexWordChars at hcw
    obtain ⟨i, _, hi⟩ := List.mem_map.mp hcw
    exact hi ▸ hexDigit_mem _
  unfold sha256HexChars sha256Words digestWords at h
  simp only [List.foldr_cons, List.foldr_nil, List.mem_append] at h
  rcases h with h | h | h | h | h | h | h | h | h <;>
    first
      | exact hw _ h
      | cases h

/-- C8: `compute_project_id` is a 16-character uppercase-hexadecimal
identifier: for every (name, path) pair the result has length 16, every
character is one of `0-9A-F`, and equal pairs yield equal identifiers
(the function being pure and deterministic by construction). -/
theorem compute_project_id_format (name path : String) :
    (computeProjectId name path).length = 16
    ∧ (∀ c ∈ (computeProjectId name path).data, c ∈ hexChars)
    ∧ (∀ name2 path2, name = name2 → path = path2 →
        computeProjectId name path = computeProjectId name2 path2) := by
  refine ⟨?_, ?_, ?_⟩
  · simp [computeProjectId, String.length, List.length_take, sha256HexChars_length]
  · intro c hc
    simp only [computeProjectId] at hc
    exact sha256HexChars_mem _ (List.take_subset _ _ hc)
  · intro name2 path2 h1 h2
    rw [h1, h2]

/-- C8 witness: the theorem applied at ("n", "p"). -/
theorem compute_project_id_format_witness :
    (computeProjectId "n" "p").length = 16
    ∧ computeProjectId "n" "p" = computeProjectId "n" "p" :=
  ⟨(compute_project_id_format "n" "p").1,
    (compute_project_id_format "n" "p").2.2 "n" "p" rfl rfl⟩

theorem udsConnect_false {env : ConnEnv} {st : ConnState} {st1 : ConnState}
    (h : udsConnect env st = (st1, false)) : st1.handle = none := by
  unfold udsConnect at h
  cases hs : st.handle with
  | some u =>
    rw [hs] at h
    simp at h
  | none =>
    rw [hs] at h
    by_cases hco : env.connectOk
    · rw [if_pos hco] at h
      simp at h
    · rw [if_neg hco] at h
      injection h with h1 _
      rw [← h1]

/-- C9: every exception `send_command` lets escape — a transport I/O
failure, a short/closed read, an unparsable body, a host response whose
`status` is `"error"`, or an initial connect failure — leaves the
connection torn down (the socket / pipe handle slot `None`) before the
exception reaches the caller, in both the UDS and the named-pipe
variants; no error exit leaves a stale connected state. -/
theorem send_command_teardown_on_error (env : ConnEnv) (st : ConnState) (cmd : String)
    (e : SendErr) :
    ((udsSendCommand env st cmd).2 = .error e →
      (udsSendCommand env st cmd).1.handle = none)
    ∧ ((pipeSendCommand env st cmd).2 = .error e →
      (pipeSendCommand env st cmd).1.handle = none) := by
  have hex : ∀ b c, (exchange env cmd b c).2 = .error e →
      (exchange env cmd b c).1.handle = none := by
    intro b c
    unfold exchange
    rcases hoc : env.outcome with m | _ | _ | body
    · intro _; rfl
    · intro _; rfl
    · intro _; rfl
    · dsimp only
      rcases body with _ | bb | q | s | xs | d
      · intro _; rfl
      · intro _; rfl
      · intro _; rfl
      · intro _; rfl
      · intro _; rfl
      · dsimp only
        split_ifs <;> intro h <;> first | rfl | simp at h
  constructor
  · unfold udsSendCommand
    cases hs : st.handle with
    | none =>
      rcases hc : udsConnect env st with ⟨st1, ok⟩
      cases ok
      · intro _
        exact udsConnect_false hc
      · exact hex _ _
    | some u => exact hex _ _
  · unfold pipeSendCommand
    cases hs : st.handle with
    | none =>
      rcases hc : udsConnect env st with ⟨st1, ok⟩
      cases ok
      · intro _
        exact udsConnect_false hc
      · exact hex _ _
    | some u => exact hex _ _

/-- C9 witness: the theorem applied to a broken-channel exchange on a
connected handle: the returned state has the handle reset to `None` on
both variants. -/
theorem send_command_teardown_on_error_witness :
    (udsSendCommand ⟨true, .ioFail "x"⟩ ⟨some ()⟩ "cmd").1.handle = none
    ∧ (pipeSendCommand ⟨true, .ioFail "x"⟩ ⟨some ()⟩ "cmd").1.handle = none :=
  ⟨(send_command_teardown_on_error ⟨true, .ioFail "x"⟩ ⟨some ()⟩ "cmd"
      (.connBroken ("UDS broken: " ++ "x"))).1 rfl,
    (send_command_teardown_on_error ⟨true, .ioFail "x"⟩ ⟨some ()⟩ "cmd"
      (.connBroken ("Pipe broken: " ++ "x"))).2 rfl⟩

end UnityMcp
